import Mathlib

/-!
Verification of the ent privacy/policy decision pipeline
(`entc/gen/template/privacy.tmpl`).

The template generates a small authorization layer: three sentinel error
values (`Allow`, `Deny`, `Skip`), formatted wrappers around them built with
the host language's error-wrapping facility, a decision cache carried on the
execution context, policy evaluation loops for queries and mutations, an
operation-kind filter for mutation rules, and per-entity-type rule adapters
that type-check the incoming operation.

This file embeds those definitions shallowly: errors are an inductive type
whose `wrapf` constructor models `fmt.Errorf(format+": %w", ...)`, and
`errorsIs` models `errors.Is` (identity comparison at each level of the
unwrap chain).
-/

namespace EntPrivacy

/-- A host-language error value.  `errorNew id msg` models a distinct error
allocated by `errors.New` (the `id` models pointer identity: two allocations
with the same message are distinct values).  `wrapf msg inner` models
`fmt.Errorf(msg+": %w", inner)`, a wrapper that carries formatted text and
unwraps to `inner`.  The three sentinel constructors model the package-level
variables `Allow`, `Deny` and `Skip`. -/
inductive GoError : Type where
  | allowE : GoError
  | denyE : GoError
  | skipE : GoError
  | errorNew : Nat → String → GoError
  | wrapf : String → GoError → GoError
deriving DecidableEq, Repr

/-- `Allow = errors.New("ent/privacy: allow rule")`. -/
def Allow : GoError := GoError.allowE

/-- `Deny = errors.New("ent/privacy: deny rule")`. -/
def Deny : GoError := GoError.denyE

/-- `Skip = errors.New("ent/privacy: skip rule")`. -/
def Skip : GoError := GoError.skipE

/-- `errors.Is(e, target)`: walk the unwrap chain of `e`, returning true as
soon as a link equals `target`; a `wrapf` node unwraps to its inner error,
all other errors end the chain. -/
def errorsIs (e target : GoError) : Bool :=
  if e = target then true
  else
    match e with
    | GoError.wrapf _ inner => errorsIs inner target
    | _ => false

/-- `Allowf(format, a...)` returns a formatted wrapped Allow decision:
`fmt.Errorf(format+": %w", append(a, Allow)...)`.  The rendered text is the
`msg` argument here; the wrapped sentinel is what matters for matching. -/
def Allowf (msg : String) : GoError := GoError.wrapf msg Allow

/-- `Denyf(format, a...)` returns a formatted wrapped Deny decision. -/
def Denyf (msg : String) : GoError := GoError.wrapf msg Deny

/-- `Skipf(format, a...)` returns a formatted wrapped Skip decision. -/
def Skipf (msg : String) : GoError := GoError.wrapf msg Skip

/-- An execution context, reduced to the single piece of state the privacy
subsystem reads from it: the value stored under `decisionCtxKey{}` (if any).
`context.WithValue` shadows the parent's entry for the same key. -/
structure Context where
  cached : Option GoError
deriving DecidableEq, Repr

/-- `DecisionContext(parent, decision)`: returns `parent` unchanged when
`decision` is nil or matches `Skip`; otherwise derives a context carrying
`decision` under the decision key. -/
def DecisionContext (parent : Context) (decision : Option GoError) : Context :=
  match decision with
  | none => parent
  | some d => if errorsIs d Skip then parent else { cached := some d }

/-- `decisionFromContext(ctx)`: reads the decision stored on the context
(`ok` reports whether one is present); a stored decision matching `Allow`
is normalized to nil. -/
def decisionFromContext (ctx : Context) : Option GoError × Bool :=
  match ctx.cached with
  | none => (none, false)
  | some d => if errorsIs d Allow then (none, true) else (some d, true)

/-- An `ent.Query` value: the privacy layer only inspects its dynamic
(concrete) type, so we carry the type's name plus opaque content. -/
structure EntQuery where
  tyName : String
  payload : Nat
deriving DecidableEq, Repr

/-- An `ent.Mutation` value: the privacy layer inspects its dynamic type and
its operation kind `m.Op()` (a bitmask). -/
structure EntMutation where
  op : Nat
  tyName : String
  payload : Nat
deriving DecidableEq, Repr

/-- A query rule: `EvalQuery(ctx, q) error`.  `none` models a nil error. -/
abbrev QueryRule := Context → EntQuery → Option GoError

/-- A mutation rule: `EvalMutation(ctx, m) error`. -/
abbrev MutationRule := Context → EntMutation → Option GoError

/-- `QueryPolicy`, an ordered list of query rules. -/
abbrev QueryPolicy := List QueryRule

/-- `MutationPolicy`, an ordered list of mutation rules. -/
abbrev MutationPolicy := List MutationRule

/-- The policy evaluation loop shared verbatim by `QueryPolicy.EvalQuery`
and `MutationPolicy.EvalMutation`: for each rule in order, a nil or
Skip-matching decision continues, an Allow-matching decision returns nil,
and any other decision is returned as is; an exhausted loop returns nil. -/
def evalRules {Q : Type} : List (Context → Q → Option GoError) → Context → Q → Option GoError
  | [], _, _ => none
  | rule :: rest, ctx, q =>
    match rule ctx q with
    | none => evalRules rest ctx q
    | some d =>
      if errorsIs d Skip then evalRules rest ctx q
      else if errorsIs d Allow then none
      else some d

/-- `QueryPolicy.EvalQuery`: return a cached decision when the context
carries one, otherwise run the rule loop. -/
def EvalQuery (policy : QueryPolicy) (ctx : Context) (q : EntQuery) : Option GoError :=
  if (decisionFromContext ctx).2 then (decisionFromContext ctx).1
  else evalRules policy ctx q

/-- `MutationPolicy.EvalMutation`: same algorithm as `EvalQuery`, over the
mutation rules. -/
def EvalMutation (policy : MutationPolicy) (ctx : Context) (m : EntMutation) : Option GoError :=
  if (decisionFromContext ctx).2 then (decisionFromContext ctx).1
  else evalRules policy ctx m

/-- Instrumented copy of `evalRules` that also counts how many rules the
loop invoked, to make "subsequent rules are never run" statable. -/
def evalRulesN {Q : Type} : List (Context → Q → Option GoError) → Context → Q → Option GoError × Nat
  | [], _, _ => (none, 0)
  | rule :: rest, ctx, q =>
    match rule ctx q with
    | none => ((evalRulesN rest ctx q).1, (evalRulesN rest ctx q).2 + 1)
    | some d =>
      if errorsIs d Skip then ((evalRulesN rest ctx q).1, (evalRulesN rest ctx q).2 + 1)
      else if errorsIs d Allow then (none, 1)
      else (some d, 1)

/-- Instrumented `EvalQuery`: the result together with the number of rules
invoked (zero when a cached decision short-circuits the loop). -/
def EvalQueryN (policy : QueryPolicy) (ctx : Context) (q : EntQuery) : Option GoError × Nat :=
  if (decisionFromContext ctx).2 then ((decisionFromContext ctx).1, 0)
  else evalRulesN policy ctx q

/-- Instrumented `EvalMutation`. -/
def EvalMutationN (policy : MutationPolicy) (ctx : Context) (m : EntMutation) : Option GoError × Nat :=
  if (decisionFromContext ctx).2 then ((decisionFromContext ctx).1, 0)
  else evalRulesN policy ctx m

/-- Modelled from the spec: the operation-kind membership test
`(i Op).Is(o Op)` lives in the runtime package, outside the excerpted
sources.  Operation kinds are one-hot bits and `Is` tests bitmask
membership (`i&o != 0`). -/
def opIs (i o : Nat) : Bool := decide (i &&& o ≠ 0)

/-- `OnMutationOperation(rule, op)`: a rule that delegates to `rule` when
`m.Op().Is(op)` and returns `Skip` otherwise. -/
def OnMutationOperation (rule : MutationRule) (op : Nat) : MutationRule :=
  fun ctx m => if opIs m.op op then rule ctx m else some Skip

/-- The diagnostic text of the generated per-entity query adapters:
`"ent/privacy: unexpected query type %T, expect <entity query type>"`. -/
def unexpectedQueryTypeMsg (actual expected : String) : String :=
  "ent/privacy: unexpected query type " ++ actual ++ ", expect " ++ expected

/-- The diagnostic text of the generated per-entity mutation adapters. -/
def unexpectedMutationTypeMsg (actual expected : String) : String :=
  "ent/privacy: unexpected mutation type " ++ actual ++ ", expect " ++ expected

/-- The generated `<Name>QueryRuleFunc.EvalQuery`, parameterized by the
entity query type name the template instantiates: a type assertion on the
incoming query delegates to `f` on success and returns a formatted Deny
naming the expected and actual types on failure. -/
def entQueryRuleFunc (tyName : String) (f : Context → EntQuery → Option GoError) : QueryRule :=
  fun ctx q =>
    if q.tyName = tyName then f ctx q
    else some (Denyf (unexpectedQueryTypeMsg q.tyName tyName))

/-- The generated `<Name>MutationRuleFunc.EvalMutation`. -/
def entMutationRuleFunc (tyName : String) (f : Context → EntMutation → Option GoError) : MutationRule :=
  fun ctx m =>
    if m.tyName = tyName then f ctx m
    else some (Denyf (unexpectedMutationTypeMsg m.tyName tyName))

/-- The first case of the evaluation loop's switch:
`decision == nil || errors.Is(decision, Skip)`. -/
def isSkipResult (r : Option GoError) : Bool :=
  match r with
  | none => true
  | some d => errorsIs d Skip

/-- Whether a (possibly nil) rule result matches a given sentinel. -/
def resultIs (r : Option GoError) (target : GoError) : Bool :=
  match r with
  | some d => errorsIs d target
  | none => false

/-- A context is well formed when any cached decision does not match
`Skip` — the invariant `DecisionContext` maintains. -/
def wfCtx (ctx : Context) : Bool :=
  match ctx.cached with
  | none => true
  | some d => !errorsIs d Skip

/-! ### Helper lemmas -/

lemma errorsIs_wrapf_ne (s : String) (inner target : GoError)
    (h : GoError.wrapf s inner ≠ target) :
    errorsIs (GoError.wrapf s inner) target = errorsIs inner target := by
  rw [show errorsIs (GoError.wrapf s inner) target
        = if GoError.wrapf s inner = target then true else errorsIs inner target from rfl]
  rw [if_neg h]

@[simp] lemma errorsIs_wrapf_allow (s : String) (inner : GoError) :
    errorsIs (GoError.wrapf s inner) Allow = errorsIs inner Allow :=
  errorsIs_wrapf_ne s inner Allow (fun h => GoError.noConfusion h)

@[simp] lemma errorsIs_wrapf_deny (s : String) (inner : GoError) :
    errorsIs (GoError.wrapf s inner) Deny = errorsIs inner Deny :=
  errorsIs_wrapf_ne s inner Deny (fun h => GoError.noConfusion h)

@[simp] lemma errorsIs_wrapf_skip (s : String) (inner : GoError) :
    errorsIs (GoError.wrapf s inner) Skip = errorsIs inner Skip :=
  errorsIs_wrapf_ne s inner Skip (fun h => GoError.noConfusion h)

lemma errorsIs_errorNew (n : Nat) (msg : String) (target : GoError) :
    errorsIs (GoError.errorNew n msg) target = decide (GoError.errorNew n msg = target) := by
  unfold errorsIs
  by_cases h : GoError.errorNew n msg = target
  · rw [if_pos h]
    exact (decide_eq_true h).symm
  · rw [if_neg h]
    exact (decide_eq_false h).symm

/-- A decision matching `Allow` cannot also match `Skip`: the unwrap chain
ends in a single base error, and the two sentinels are distinct values. -/
lemma errorsIs_allow_not_skip :
    ∀ d : GoError, errorsIs d Allow = true → errorsIs d Skip = false := by
  intro d
  induction d with
  | allowE => intro _; decide
  | denyE => intro h; exact absurd h (by decide)
  | skipE => intro h; exact absurd h (by decide)
  | errorNew n msg =>
      intro h
      rw [errorsIs_errorNew] at h
      simp [Allow] at h
  | wrapf s inner ih =>
      intro h
      rw [errorsIs_wrapf_allow] at h
      rw [errorsIs_wrapf_skip]
      exact ih h

/-- The instrumented loop computes the same decision as the plain loop. -/
lemma evalRulesN_fst {Q : Type} (rules : List (Context → Q → Option GoError))
    (ctx : Context) (q : Q) :
    (evalRulesN rules ctx q).1 = evalRules rules ctx q := by
  induction rules with
  | nil => rfl
  | cons rule rest ih =>
      show (evalRulesN (rule :: rest) ctx q).1 = evalRules (rule :: rest) ctx q
      unfold evalRulesN evalRules
      cases h : rule ctx q with
      | none => simpa using ih
      | some d =>
          by_cases hskip : errorsIs d Skip = true
          · simpa [hskip] using ih
          · by_cases hallow : errorsIs d Allow = true
            · simp [hskip, hallow]
            · simp [hskip, hallow]

/-- One rule that answers nil or Skip advances the loop. -/
lemma evalRules_skip_cons {Q : Type} (rule : Context → Q → Option GoError)
    (rest : List (Context → Q → Option GoError)) (ctx : Context) (q : Q)
    (h : isSkipResult (rule ctx q) = true) :
    evalRules (rule :: rest) ctx q = evalRules rest ctx q ∧
    (evalRulesN (rule :: rest) ctx q).2 = (evalRulesN rest ctx q).2 + 1 := by
  cases hr : rule ctx q with
  | none => simp [evalRules, evalRulesN, hr]
  | some d =>
      have h2 : errorsIs d Skip = true := by simpa [isSkipResult, hr] using h
      simp [evalRules, evalRulesN, hr, h2]

/-- A prefix of rules that all answer nil or Skip is consumed entirely. -/
lemma evalRules_append_skips {Q : Type}
    (pre rest : List (Context → Q → Option GoError)) (ctx : Context) (q : Q)
    (h : pre.all (fun p => isSkipResult (p ctx q)) = true) :
    evalRules (pre ++ rest) ctx q = evalRules rest ctx q ∧
    (evalRulesN (pre ++ rest) ctx q).2 = pre.length + (evalRulesN rest ctx q).2 := by
  induction pre with
  | nil => simp
  | cons p ps ih =>
      rw [List.all_cons, Bool.and_eq_true] at h
      obtain ⟨hp, hps⟩ := h
      obtain ⟨ih1, ih2⟩ := ih hps
      obtain ⟨h1, h2⟩ := evalRules_skip_cons p (ps ++ rest) ctx q hp
      constructor
      · rw [List.cons_append, h1, ih1]
      · rw [List.cons_append, h2, ih2, List.length_cons]
        omega

/-- A head rule answering a decision that matches neither Skip nor Allow
stops the loop at once with that decision. -/
lemma evalRules_deny_head {Q : Type} (rule : Context → Q → Option GoError)
    (rest : List (Context → Q → Option GoError)) (ctx : Context) (q : Q) (d : GoError)
    (hr : rule ctx q = some d)
    (hskip : errorsIs d Skip = false) (hallow : errorsIs d Allow = false) :
    evalRules (rule :: rest) ctx q = some d ∧
    (evalRulesN (rule :: rest) ctx q).2 = 1 := by
  unfold evalRules evalRulesN
  simp [hr, hskip, hallow]

/-- A head rule answering an Allow-matching decision stops the loop at once
with success. -/
lemma evalRules_allow_head {Q : Type} (rule : Context → Q → Option GoError)
    (rest : List (Context → Q → Option GoError)) (ctx : Context) (q : Q) (d : GoError)
    (hr : rule ctx q = some d) (hallow : errorsIs d Allow = true) :
    evalRules (rule :: rest) ctx q = none ∧
    (evalRulesN (rule :: rest) ctx q).2 = 1 := by
  have hskip : errorsIs d Skip = false := errorsIs_allow_not_skip d hallow
  unfold evalRules evalRulesN
  simp [hr, hskip, hallow]

/-- When every rule answers nil or Skip, the loop runs them all and ends
with success. -/
lemma evalRules_all_skips {Q : Type} (rules : List (Context → Q → Option GoError))
    (ctx : Context) (q : Q)
    (h : rules.all (fun p => isSkipResult (p ctx q)) = true) :
    evalRules rules ctx q = none ∧ (evalRulesN rules ctx q).2 = rules.length := by
  have := evalRules_append_skips rules [] ctx q h
  simpa [evalRules, evalRulesN] using this

/-- The loop never returns a Skip-matching decision: the Skip branch always
advances instead of returning. -/
lemma evalRules_result_not_skip {Q : Type} (rules : List (Context → Q → Option GoError))
    (ctx : Context) (q : Q) :
    resultIs (evalRules rules ctx q) Skip = false := by
  induction rules with
  | nil => rfl
  | cons rule rest ih =>
      show resultIs (evalRules (rule :: rest) ctx q) Skip = false
      unfold evalRules
      cases hr : rule ctx q with
      | none => simpa using ih
      | some d =>
          by_cases hskip : errorsIs d Skip = true
          · simpa [hskip] using ih
          · by_cases hallow : errorsIs d Allow = true
            · simp [hskip, hallow, resultIs]
            · simp only [Bool.not_eq_true] at hskip
              simp [hskip, hallow, resultIs]

/-- A context with no cached decision defers to the rule loop. -/
lemma EvalQuery_no_cache (policy : QueryPolicy) (ctx : Context) (q : EntQuery)
    (h : ctx.cached = none) :
    EvalQuery policy ctx q = evalRules policy ctx q ∧
    EvalQueryN policy ctx q = evalRulesN policy ctx q := by
  unfold EvalQuery EvalQueryN decisionFromContext
  rw [h]
  simp

lemma EvalMutation_no_cache (policy : MutationPolicy) (ctx : Context) (m : EntMutation)
    (h : ctx.cached = none) :
    EvalMutation policy ctx m = evalRules policy ctx m ∧
    EvalMutationN policy ctx m = evalRulesN policy ctx m := by
  unfold EvalMutation EvalMutationN decisionFromContext
  rw [h]
  simp

@[simp] lemma errorsIs_refl (e : GoError) : errorsIs e e = true := by
  unfold errorsIs
  simp

lemma isSkipResult_of_resultIs_skip (r : Option GoError) (h : resultIs r Skip = true) :
    isSkipResult r = true := by
  cases r with
  | none => rfl
  | some d => simpa [resultIs, isSkipResult] using h

/-! ### Concrete fixtures for the witnesses -/

def ctx0 : Context := { cached := none }

def ctxAllow : Context := { cached := some (Allowf "viewer is admin") }

def ctxDeny : Context := { cached := some (Denyf "no access") }

def q0 : EntQuery := { tyName := "*ent.UserQuery", payload := 0 }

def qWrong : EntQuery := { tyName := "*ent.CardQuery", payload := 7 }

def m0 : EntMutation := { op := 1, tyName := "*ent.UserMutation", payload := 0 }

def mWrong : EntMutation := { op := 1, tyName := "*ent.CardMutation", payload := 7 }

def ruleSkipQ : QueryRule := fun _ _ => some Skip

def ruleDenyQ : QueryRule := fun _ _ => some (Denyf "no access")

def ruleAllowQ : QueryRule := fun _ _ => some Allow

def ruleNilQ : QueryRule := fun _ _ => none

def ruleSkipM : MutationRule := fun _ _ => some Skip

def ruleDenyM : MutationRule := fun _ _ => some (Denyf "no access")

def ruleAllowM : MutationRule := fun _ _ => some Allow

def ruleNilM : MutationRule := fun _ _ => none

def fQ : Context → EntQuery → Option GoError := fun _ _ => some Allow

def gM : Context → EntMutation → Option GoError := fun _ _ => some Allow

/-! ### Claim theorems -/

/-- C1: For every policy and every context without a cached decision, the
first rule whose result is neither nil/Skip nor matches Allow terminates
`EvalQuery`/`EvalMutation` immediately: the returned error is exactly the
denying rule's error, and no subsequent rule is invoked (the instrumented
invocation count stops at the denying rule). -/
theorem evalPolicy_first_deny_short_circuits
    (pre post : QueryPolicy) (r : QueryRule)
    (preM postM : MutationPolicy) (rM : MutationRule)
    (ctx : Context) (q : EntQuery) (m : EntMutation) (d e : GoError)
    (hctx : ctx.cached = none)
    (hpre : pre.all (fun p => isSkipResult (p ctx q)) = true)
    (hr : r ctx q = some d)
    (hdSkip : errorsIs d Skip = false) (hdAllow : errorsIs d Allow = false)
    (hpreM : preM.all (fun p => isSkipResult (p ctx m)) = true)
    (hrM : rM ctx m = some e)
    (heSkip : errorsIs e Skip = false) (heAllow : errorsIs e Allow = false) :
    EvalQuery (pre ++ r :: post) ctx q = some d ∧
    (EvalQueryN (pre ++ r :: post) ctx q).2 = pre.length + 1 ∧
    EvalMutation (preM ++ rM :: postM) ctx m = some e ∧
    (EvalMutationN (preM ++ rM :: postM) ctx m).2 = preM.length + 1 := by
  obtain ⟨hq1, hq2⟩ := EvalQuery_no_cache (pre ++ r :: post) ctx q hctx
  obtain ⟨hm1, hm2⟩ := EvalMutation_no_cache (preM ++ rM :: postM) ctx m hctx
  obtain ⟨ha1, ha2⟩ := evalRules_append_skips pre (r :: post) ctx q hpre
  obtain ⟨hb1, hb2⟩ := evalRules_deny_head r post ctx q d hr hdSkip hdAllow
  obtain ⟨hc1, hc2⟩ := evalRules_append_skips preM (rM :: postM) ctx m hpreM
  obtain ⟨hd1, hd2⟩ := evalRules_deny_head rM postM ctx m e hrM heSkip heAllow
  refine ⟨?_, ?_, ?_, ?_⟩
  · rw [hq1, ha1, hb1]
  · rw [hq2, ha2, hb2]
  · rw [hm1, hc1, hd1]
  · rw [hm2, hc2, hd2]

/-- Witness for C1 at the spec's concrete scenario:
Policy = [RuleA→Skip, RuleB→Deny("no access"), RuleC→Allow] returns RuleB's
Deny and invokes exactly two rules (RuleC never runs). -/
theorem evalPolicy_first_deny_short_circuits_witness :
    EvalQuery [ruleSkipQ, ruleDenyQ, ruleAllowQ] ctx0 q0 = some (Denyf "no access") ∧
    (EvalQueryN [ruleSkipQ, ruleDenyQ, ruleAllowQ] ctx0 q0).2 = 2 ∧
    EvalMutation [ruleSkipM, ruleDenyM, ruleAllowM] ctx0 m0 = some (Denyf "no access") ∧
    (EvalMutationN [ruleSkipM, ruleDenyM, ruleAllowM] ctx0 m0).2 = 2 :=
  evalPolicy_first_deny_short_circuits [ruleSkipQ] [ruleAllowQ] ruleDenyQ
    [ruleSkipM] [ruleAllowM] ruleDenyM ctx0 q0 m0 (Denyf "no access") (Denyf "no access")
    rfl rfl rfl rfl rfl rfl rfl rfl rfl

/-- C2: For every policy with zero rules, and for every policy in which
every rule returns Skip, `EvalQuery` and `EvalMutation` (with no cached
decision on the context) return success. -/
theorem evalPolicy_fail_open
    (policy : QueryPolicy) (mpolicy : MutationPolicy)
    (ctx : Context) (q : EntQuery) (m : EntMutation)
    (hctx : ctx.cached = none)
    (hq : policy.all (fun p => resultIs (p ctx q) Skip) = true)
    (hm : mpolicy.all (fun p => resultIs (p ctx m) Skip) = true) :
    EvalQuery policy ctx q = none ∧ EvalMutation mpolicy ctx m = none := by
  have hq2 : policy.all (fun p => isSkipResult (p ctx q)) = true := by
    rw [List.all_eq_true] at hq ⊢
    intro p hp
    exact isSkipResult_of_resultIs_skip _ (hq p hp)
  have hm2 : mpolicy.all (fun p => isSkipResult (p ctx m)) = true := by
    rw [List.all_eq_true] at hm ⊢
    intro p hp
    exact isSkipResult_of_resultIs_skip _ (hm p hp)
  obtain ⟨h1, _⟩ := EvalQuery_no_cache policy ctx q hctx
  obtain ⟨h2, _⟩ := EvalMutation_no_cache mpolicy ctx m hctx
  obtain ⟨h3, _⟩ := evalRules_all_skips policy ctx q hq2
  obtain ⟨h4, _⟩ := evalRules_all_skips mpolicy ctx m hm2
  exact ⟨by rw [h1, h3], by rw [h2, h4]⟩

/-- Witness for C2: a policy whose one rule answers Skip, and the empty
mutation policy, both succeed. -/
theorem evalPolicy_fail_open_witness :
    EvalQuery [ruleSkipQ] ctx0 q0 = none ∧ EvalMutation [] ctx0 m0 = none :=
  evalPolicy_fail_open [ruleSkipQ] [] ctx0 q0 m0 rfl rfl rfl

/-- C3: For every policy and context without a cached decision, the first
rule whose result matches Allow makes `EvalQuery`/`EvalMutation` return
success immediately, and no subsequent rule is invoked. -/
theorem evalPolicy_first_allow_short_circuits
    (pre post : QueryPolicy) (r : QueryRule)
    (preM postM : MutationPolicy) (rM : MutationRule)
    (ctx : Context) (q : EntQuery) (m : EntMutation) (d e : GoError)
    (hctx : ctx.cached = none)
    (hpre : pre.all (fun p => isSkipResult (p ctx q)) = true)
    (hr : r ctx q = some d) (hdAllow : errorsIs d Allow = true)
    (hpreM : preM.all (fun p => isSkipResult (p ctx m)) = true)
    (hrM : rM ctx m = some e) (heAllow : errorsIs e Allow = true) :
    EvalQuery (pre ++ r :: post) ctx q = none ∧
    (EvalQueryN (pre ++ r :: post) ctx q).2 = pre.length + 1 ∧
    EvalMutation (preM ++ rM :: postM) ctx m = none ∧
    (EvalMutationN (preM ++ rM :: postM) ctx m).2 = preM.length + 1 := by
  obtain ⟨hq1, hq2⟩ := EvalQuery_no_cache (pre ++ r :: post) ctx q hctx
  obtain ⟨hm1, hm2⟩ := EvalMutation_no_cache (preM ++ rM :: postM) ctx m hctx
  obtain ⟨ha1, ha2⟩ := evalRules_append_skips pre (r :: post) ctx q hpre
  obtain ⟨hb1, hb2⟩ := evalRules_allow_head r post ctx q d hr hdAllow
  obtain ⟨hc1, hc2⟩ := evalRules_append_skips preM (rM :: postM) ctx m hpreM
  obtain ⟨hd1, hd2⟩ := evalRules_allow_head rM postM ctx m e hrM heAllow
  refine ⟨?_, ?_, ?_, ?_⟩
  · rw [hq1, ha1, hb1]
  · rw [hq2, ha2, hb2]
  · rw [hm1, hc1, hd1]
  · rw [hm2, hc2, hd2]

/-- Witness for C3: [Skip, Allow, Deny] succeeds after invoking exactly two
rules, so the trailing Deny rule never runs. -/
theorem evalPolicy_first_allow_short_circuits_witness :
    EvalQuery [ruleSkipQ, ruleAllowQ, ruleDenyQ] ctx0 q0 = none ∧
    (EvalQueryN [ruleSkipQ, ruleAllowQ, ruleDenyQ] ctx0 q0).2 = 2 ∧
    EvalMutation [ruleSkipM, ruleAllowM, ruleDenyM] ctx0 m0 = none ∧
    (EvalMutationN [ruleSkipM, ruleAllowM, ruleDenyM] ctx0 m0).2 = 2 :=
  evalPolicy_first_allow_short_circuits [ruleSkipQ] [ruleDenyQ] ruleAllowQ
    [ruleSkipM] [ruleDenyM] ruleAllowM ctx0 q0 m0 Allow Allow
    rfl rfl rfl rfl rfl rfl rfl

/-- C4: For every policy, a context already carrying a cached decision makes
`EvalQuery`/`EvalMutation` return it without invoking any rule: an
Allow-matching cached decision yields success, any other cached decision is
returned as the stored value. -/
theorem evalPolicy_cached_decision
    (policy : QueryPolicy) (mpolicy : MutationPolicy)
    (ctx : Context) (q : EntQuery) (m : EntMutation) (d : GoError)
    (h : ctx.cached = some d) :
    (errorsIs d Allow = true →
      EvalQuery policy ctx q = none ∧ EvalMutation mpolicy ctx m = none) ∧
    (errorsIs d Allow = false →
      EvalQuery policy ctx q = some d ∧ EvalMutation mpolicy ctx m = some d) ∧
    (EvalQueryN policy ctx q).2 = 0 ∧ (EvalMutationN mpolicy ctx m).2 = 0 := by
  unfold EvalQuery EvalMutation EvalQueryN EvalMutationN decisionFromContext
  rw [h]
  by_cases hA : errorsIs d Allow = true
  · simp [hA]
  · simp [hA]

/-- Witness for C4: a cached wrapped Allow yields success past a policy of
deny rules; a cached Deny is returned unchanged past a policy of allow
rules; zero rules are invoked either way. -/
theorem evalPolicy_cached_decision_witness :
    (EvalQuery [ruleDenyQ] ctxAllow q0 = none ∧
      EvalMutation [ruleDenyM] ctxAllow m0 = none) ∧
    (EvalQuery [ruleAllowQ] ctxDeny q0 = some (Denyf "no access") ∧
      EvalMutation [ruleAllowM] ctxDeny m0 = some (Denyf "no access")) ∧
    (EvalQueryN [ruleDenyQ] ctxAllow q0).2 = 0 ∧
    (EvalMutationN [ruleAllowM] ctxDeny m0).2 = 0 :=
  ⟨(evalPolicy_cached_decision [ruleDenyQ] [ruleDenyM] ctxAllow q0 m0
      (Allowf "viewer is admin") rfl).1 rfl,
   (evalPolicy_cached_decision [ruleAllowQ] [ruleAllowM] ctxDeny q0 m0
      (Denyf "no access") rfl).2.1 rfl,
   (evalPolicy_cached_decision [ruleDenyQ] [ruleDenyM] ctxAllow q0 m0
      (Allowf "viewer is admin") rfl).2.2.1,
   (evalPolicy_cached_decision [ruleAllowQ] [ruleAllowM] ctxDeny q0 m0
      (Denyf "no access") rfl).2.2.2⟩

/-- C5: A generated per-entity-type rule adapter applied to an operation of
the wrong concrete entity type returns a Deny-wrapped error naming the
expected and actual types without invoking the user function (the mismatch
result is a constant, independent of `f`/`g`); applied to the matching type
it returns the user function's result unchanged. -/
theorem entityRuleFunc_type_gate
    (tyQ tyM : String) (f : Context → EntQuery → Option GoError)
    (g : Context → EntMutation → Option GoError)
    (ctx : Context) (q : EntQuery) (m : EntMutation) :
    (q.tyName ≠ tyQ →
      entQueryRuleFunc tyQ f ctx q
          = some (Denyf (unexpectedQueryTypeMsg q.tyName tyQ)) ∧
      resultIs (entQueryRuleFunc tyQ f ctx q) Deny = true) ∧
    (q.tyName = tyQ → entQueryRuleFunc tyQ f ctx q = f ctx q) ∧
    (m.tyName ≠ tyM →
      entMutationRuleFunc tyM g ctx m
          = some (Denyf (unexpectedMutationTypeMsg m.tyName tyM)) ∧
      resultIs (entMutationRuleFunc tyM g ctx m) Deny = true) ∧
    (m.tyName = tyM → entMutationRuleFunc tyM g ctx m = g ctx m) := by
  refine ⟨fun h => ?_, fun h => ?_, fun h => ?_, fun h => ?_⟩ <;>
    simp [entQueryRuleFunc, entMutationRuleFunc, h, resultIs, Denyf]

/-- Witness for C5: a Card query/mutation hitting a User-typed adapter is
denied with the diagnostic message; a User query/mutation is delegated. -/
theorem entityRuleFunc_type_gate_witness :
    (entQueryRuleFunc "*ent.UserQuery" fQ ctx0 qWrong
        = some (Denyf (unexpectedQueryTypeMsg "*ent.CardQuery" "*ent.UserQuery")) ∧
      resultIs (entQueryRuleFunc "*ent.UserQuery" fQ ctx0 qWrong) Deny = true) ∧
    (entQueryRuleFunc "*ent.UserQuery" fQ ctx0 q0 = fQ ctx0 q0) ∧
    (entMutationRuleFunc "*ent.UserMutation" gM ctx0 mWrong
        = some (Denyf (unexpectedMutationTypeMsg "*ent.CardMutation" "*ent.UserMutation")) ∧
      resultIs (entMutationRuleFunc "*ent.UserMutation" gM ctx0 mWrong) Deny = true) ∧
    (entMutationRuleFunc "*ent.UserMutation" gM ctx0 m0 = gM ctx0 m0) :=
  ⟨(entityRuleFunc_type_gate "*ent.UserQuery" "*ent.UserMutation" fQ gM ctx0 qWrong mWrong).1
      (by decide),
   (entityRuleFunc_type_gate "*ent.UserQuery" "*ent.UserMutation" fQ gM ctx0 q0 m0).2.1 rfl,
   (entityRuleFunc_type_gate "*ent.UserQuery" "*ent.UserMutation" fQ gM ctx0 qWrong mWrong).2.2.1
      (by decide),
   (entityRuleFunc_type_gate "*ent.UserQuery" "*ent.UserMutation" fQ gM ctx0 q0 m0).2.2.2 rfl⟩

/-- C6: For every mutation rule and operation kind, the rule produced by
`OnMutationOperation` returns Skip without invoking the wrapped rule when
the mutation's operation kind does not match (the result is the same for
every wrapped rule, as `rule` is universally quantified here), and returns
the wrapped rule's decision unchanged when it matches. -/
theorem onMutationOperation_kind_filter
    (rule : MutationRule) (op : Nat) (ctx : Context) (m : EntMutation) :
    (opIs m.op op = false → OnMutationOperation rule op ctx m = some Skip) ∧
    (opIs m.op op = true → OnMutationOperation rule op ctx m = rule ctx m) := by
  constructor <;> intro h <;> simp [OnMutationOperation, h]

/-- Witness for C6: a create-kind mutation (bit 1) filtered for kind bit 2
skips without consulting the deny rule; filtered for kind bit 1 it returns
the deny rule's decision. -/
theorem onMutationOperation_kind_filter_witness :
    (opIs m0.op 2 = false ∧ OnMutationOperation ruleDenyM 2 ctx0 m0 = some Skip) ∧
    (opIs m0.op 1 = true ∧ OnMutationOperation ruleDenyM 1 ctx0 m0 = ruleDenyM ctx0 m0) :=
  ⟨⟨rfl, (onMutationOperation_kind_filter ruleDenyM 2 ctx0 m0).1 rfl⟩,
   ⟨rfl, (onMutationOperation_kind_filter ruleDenyM 1 ctx0 m0).2 rfl⟩⟩

/-- C7: For every decision in {Allow, Deny, Skip} and every formatted
message, the wrapped decision produced by `Allowf`/`Denyf`/`Skipf` still
matches the underlying sentinel under `errors.Is`-style structural
matching. -/
theorem formatted_decision_preserves_identity (s : String) :
    errorsIs (Allowf s) Allow = true ∧
    errorsIs (Denyf s) Deny = true ∧
    errorsIs (Skipf s) Skip = true := by
  refine ⟨?_, ?_, ?_⟩ <;> simp [Allowf, Denyf, Skipf]

/-- C8: For every policy and every input whose context is well formed (no
cached decision matching Skip — the invariant `DecisionContext` maintains,
first conjunct), the final result of `EvalQuery`/`EvalMutation` never
matches Skip. -/
theorem evalPolicy_never_skip
    (policy : QueryPolicy) (mpolicy : MutationPolicy) (ctx : Context)
    (q : EntQuery) (m : EntMutation) (e : Option GoError)
    (h : wfCtx ctx = true) :
    wfCtx (DecisionContext ctx e) = true ∧
    resultIs (EvalQuery policy ctx q) Skip = false ∧
    resultIs (EvalMutation mpolicy ctx m) Skip = false := by
  have hcached : ∀ d : GoError, ctx.cached = some d → errorsIs d Skip = false := by
    intro d hd
    unfold wfCtx at h
    rw [hd] at h
    simpa using h
  refine ⟨?_, ?_, ?_⟩
  · cases e with
    | none => simpa [DecisionContext] using h
    | some d =>
        by_cases hs : errorsIs d Skip = true
        · simpa [DecisionContext, hs] using h
        · simp [DecisionContext, hs, wfCtx]
  · unfold EvalQuery decisionFromContext
    cases hc : ctx.cached with
    | none => simpa using evalRules_result_not_skip policy ctx q
    | some d =>
        have hs := hcached d hc
        by_cases hA : errorsIs d Allow = true
        · simp [hA, resultIs]
        · simp [hA, resultIs, hs]
  · unfold EvalMutation decisionFromContext
    cases hc : ctx.cached with
    | none => simpa using evalRules_result_not_skip mpolicy ctx m
    | some d =>
        have hs := hcached d hc
        by_cases hA : errorsIs d Allow = true
        · simp [hA, resultIs]
        · simp [hA, resultIs, hs]

/-- Witness for C8: from the background context, attaching a wrapped Skip
decision keeps the context well formed (it is not stored), and evaluating
policies that end exhausted never surfaces Skip. -/
theorem evalPolicy_never_skip_witness :
    wfCtx (DecisionContext ctx0 (some (Skipf "not my table"))) = true ∧
    resultIs (EvalQuery [ruleSkipQ, ruleNilQ] ctx0 q0) Skip = false ∧
    resultIs (EvalMutation [ruleSkipM] ctx0 m0) Skip = false :=
  evalPolicy_never_skip [ruleSkipQ, ruleNilQ] [ruleSkipM] ctx0 q0 m0
    (some (Skipf "not my table")) rfl

/-- C9: `DecisionContext` stores only definitive decisions: nil and
Skip-matching decisions leave the parent untouched, any other decision is
cached; a cached Allow-matching decision is later read back as nil, and a
cached denying decision is read back as the stored value. -/
theorem decisionContext_definitive_only (parent : Context) (d : GoError) :
    DecisionContext parent none = parent ∧
    (errorsIs d Skip = true → DecisionContext parent (some d) = parent) ∧
    (errorsIs d Skip = false → (DecisionContext parent (some d)).cached = some d) ∧
    (errorsIs d Allow = true →
      decisionFromContext (DecisionContext parent (some d)) = (none, true)) ∧
    (errorsIs d Skip = false → errorsIs d Allow = false →
      decisionFromContext (DecisionContext parent (some d)) = (some d, true)) := by
  refine ⟨rfl, fun h => ?_, fun h => ?_, fun h => ?_, fun hs hA => ?_⟩
  · simp [DecisionContext, h]
  · simp [DecisionContext, h]
  · have hs := errorsIs_allow_not_skip d h
    simp [DecisionContext, hs, decisionFromContext, h]
  · simp [DecisionContext, hs, decisionFromContext, hA]

/-- Witness for C9 at concrete decisions: a wrapped Skip is not stored, a
wrapped Deny is stored and read back as itself, a wrapped Allow is stored
and read back as nil. -/
theorem decisionContext_definitive_only_witness :
    DecisionContext ctx0 none = ctx0 ∧
    DecisionContext ctx0 (some (Skipf "not my table")) = ctx0 ∧
    (DecisionContext ctx0 (some (Denyf "no access"))).cached = some (Denyf "no access") ∧
    decisionFromContext (DecisionContext ctx0 (some (Allowf "viewer is admin")))
      = (none, true) ∧
    decisionFromContext (DecisionContext ctx0 (some (Denyf "no access")))
      = (some (Denyf "no access"), true) :=
  ⟨(decisionContext_definitive_only ctx0 (Denyf "no access")).1,
   (decisionContext_definitive_only ctx0 (Skipf "not my table")).2.1 rfl,
   (decisionContext_definitive_only ctx0 (Denyf "no access")).2.2.1 rfl,
   (decisionContext_definitive_only ctx0 (Allowf "viewer is admin")).2.2.2.1 rfl,
   (decisionContext_definitive_only ctx0 (Denyf "no access")).2.2.2.2 rfl rfl⟩

/-- C10: A rule returning nil is treated exactly like one returning Skip:
the loop moves on to the next rule instead of short-circuiting, and a
policy mixing nil-returning and Skip-returning rules invokes all of them
and resolves to success. -/
theorem rule_nil_treated_as_skip
    (policy : QueryPolicy) (mpolicy : MutationPolicy)
    (r : QueryRule) (rest : QueryPolicy)
    (ctx : Context) (q : EntQuery) (m : EntMutation)
    (hctx : ctx.cached = none)
    (hr : r ctx q = none)
    (hq : policy.all (fun p => isSkipResult (p ctx q)) = true)
    (hm : mpolicy.all (fun p => isSkipResult (p ctx m)) = true) :
    EvalQuery (r :: rest) ctx q = EvalQuery rest ctx q ∧
    EvalQuery policy ctx q = none ∧
    (EvalQueryN policy ctx q).2 = policy.length ∧
    EvalMutation mpolicy ctx m = none ∧
    (EvalMutationN mpolicy ctx m).2 = mpolicy.length := by
  obtain ⟨h1, _⟩ := EvalQuery_no_cache (r :: rest) ctx q hctx
  obtain ⟨h2, _⟩ := EvalQuery_no_cache rest ctx q hctx
  obtain ⟨h3, h4⟩ := EvalQuery_no_cache policy ctx q hctx
  obtain ⟨h5, h6⟩ := EvalMutation_no_cache mpolicy ctx m hctx
  obtain ⟨hs1, _⟩ := evalRules_skip_cons r rest ctx q (by simp [isSkipResult, hr])
  obtain ⟨ha1, ha2⟩ := evalRules_all_skips policy ctx q hq
  obtain ⟨hb1, hb2⟩ := evalRules_all_skips mpolicy ctx m hm
  exact ⟨by rw [h1, h2, hs1], by rw [h3, ha1], by rw [h4, ha2],
         by rw [h5, hb1], by rw [h6, hb2]⟩

/-- Witness for C10: a nil-returning head rule continues to the next rule
(here it does not short-circuit past an Allow rule as a success of its
own), and a [nil, Skip] policy invokes both rules and succeeds. -/
theorem rule_nil_treated_as_skip_witness :
    EvalQuery [ruleNilQ, ruleAllowQ] ctx0 q0 = EvalQuery [ruleAllowQ] ctx0 q0 ∧
    EvalQuery [ruleNilQ, ruleSkipQ] ctx0 q0 = none ∧
    (EvalQueryN [ruleNilQ, ruleSkipQ] ctx0 q0).2 = 2 ∧
    EvalMutation [ruleNilM, ruleSkipM] ctx0 m0 = none ∧
    (EvalMutationN [ruleNilM, ruleSkipM] ctx0 m0).2 = 2 :=
  rule_nil_treated_as_skip [ruleNilQ, ruleSkipQ] [ruleNilM, ruleSkipM]
    ruleNilQ [ruleAllowQ] ctx0 q0 m0 rfl rfl rfl rfl

end EntPrivacy
